import Mathlib

/-!
# AdapterConsumer (mq-rpc): connection lifecycle

Shallow embedding of `src/AdapterConsumer.js`.

The class has four fields (`_adapter`, `_connectParams`, `_errorHandler`,
`_connectPromise`) and three public methods (`ensureConnection`, `destroy`,
`setErrorHandler`).  The two `async` methods are cut at their `await`s: every
piece of code between two awaits runs without interruption on the JavaScript
event loop, so each piece is one pure function on the instance.  The pieces are
then wired into a transition system (`step`) whose actions are the method calls,
the settling of the promises handed out by the broker adapter, and the
resumption of a suspended call; any interleaving of those actions is allowed.
-/

namespace MqRpc

/-! ## Values -/

deriving instance DecidableEq for Except

/-- A JavaScript error value: its `name` and its `message`. -/
structure JSError where
  name : String
  message : String
  deriving DecidableEq, Repr

/-- Identity of an error-handler function (`Error => mixed`).  Functions are
compared by reference in JavaScript, a number stands for the reference. -/
abbrev Handler := Nat

/-- The initializer of `_errorHandler` (line 14): `err => console.error(err)`. -/
def defaultErrorHandler : Handler := 0

/-- The type `ConnectOptions` (declared in `AMQPAdapter.js`): a plain object, kept as the
list of its own fields; reading a field takes the first entry of that name. -/
abbrev ConnectOptions := List (String × String)

/-- Reading field `k` of a `ConnectOptions` object (`none` is `undefined`). -/
def ConnectOptions.field (o : ConnectOptions) (k : String) : Option String :=
  List.lookup k o

/-- The argument object of `ensureConnection`: `{ connectParams?: ConnectOptions }`. -/
structure EnsureArgs where
  connectParams : Option ConnectOptions
  deriving DecidableEq, Repr

/-- The argument object of `destroy`: `{ gracefulStopTimeout?: number }`. -/
structure DestroyOptions where
  gracefulStopTimeout : Option Nat
  deriving DecidableEq, Repr

/-- An `AMQPAdapter` object as far as `AdapterConsumer` touches it: its identity
(the number of the connect attempt that produced it) and its mutable
`_errorHandler` field. -/
structure AMQPAdapter where
  id : Nat
  _errorHandler : Handler
  deriving DecidableEq, Repr

/-- The fields of an `AdapterConsumer` instance (lines 10-15).  A promise is
held by the number of the connect attempt that returned it. -/
structure AdapterConsumer where
  _adapter : Option AMQPAdapter
  _connectParams : Option ConnectOptions
  _errorHandler : Handler
  _connectPromise : Option Nat
  deriving DecidableEq, Repr

/-- A freshly constructed instance: `_adapter` and `_connectParams` have no
initializer, `_errorHandler` is the console logger, `_connectPromise` is `null`. -/
def AdapterConsumer.new : AdapterConsumer :=
  { _adapter := none, _connectParams := none,
    _errorHandler := defaultErrorHandler, _connectPromise := none }

/-- Modelled from the spec: `mergeConnectParams` (`src/mergeConnectParams.js`
is not among the sources).  The spec: "per-call overrides shallow-merge over
stored instance defaults (override wins field-by-field)".  The first argument
is the per-call override, the second the stored defaults, as at the call site
on line 46; a missing object contributes no field. -/
def mergeConnectParams (override defaults : Option ConnectOptions) : ConnectOptions :=
  match override with
  | none => defaults.getD []
  | some o => o ++ defaults.getD []

/-! ## The synchronous pieces of the methods -/

/-- The error thrown on line 19 (the spec's `NotConnectedError`). -/
def notConnectedError : JSError :=
  { name := "Error", message := "You must call ensureConnection before act with connection" }

/-- Lines 17-23. -/
def _getAdapter (self : AdapterConsumer) : Except JSError AMQPAdapter :=
  match self._adapter with
  | none => .error notConnectedError
  | some a => .ok a

/-- Lines 25-31. -/
def _setConnectParams (self : AdapterConsumer) (connectParams : Option ConnectOptions) :
    AdapterConsumer :=
  match connectParams with
  | none => self
  | some cp => { self with _connectParams := some cp }

/-- Lines 66-71. -/
def setErrorHandler (self : AdapterConsumer) (handler : Handler) : AdapterConsumer :=
  let self1 := { self with _errorHandler := handler }
  match self1._adapter with
  | some a => { self1 with _adapter := some { a with _errorHandler := handler } }
  | none => self1

/-- What a call of `ensureConnection` has done when it first gives up control. -/
inductive EnsureEntry where
  /-- line 38: an adapter is stored, the call returns -/
  | returned
  /-- line 42: the call awaits the connect promise another call stored -/
  | awaitShared (p : Nat)
  /-- lines 46-51: `AMQPAdapter.connect(options)` was invoked, it returned
  promise `p`, and the call awaits it -/
  | awaitOwn (options : ConnectOptions) (p : Nat)
  deriving DecidableEq, Repr

/-- Lines 36-51 up to the first `await`.  `arg` is `none` when the call passes
no argument (the parameter default `= {}` then applies); `fresh` is the promise
`AMQPAdapter.connect` returns if it is invoked. -/
def ensureConnection (self : AdapterConsumer) (arg : Option EnsureArgs) (fresh : Nat) :
    AdapterConsumer × EnsureEntry :=
  let connectParams := (arg.getD { connectParams := none }).connectParams
  match self._adapter with
  | some _ => (self, .returned)
  | none =>
    match self._connectPromise with
    | some p => (self, .awaitShared p)
    | none =>
      let options := mergeConnectParams connectParams self._connectParams
      ({ self with _connectPromise := some fresh }, .awaitOwn options fresh)

/-- What `ensureConnection` returns: `undefined` (lines 38, 43) or `this` (line 58). -/
inductive EnsureValue where
  | undefined
  | this
  deriving DecidableEq, Repr

/-- Lines 42-43 after the await: the outcome of the shared promise is the
outcome of the call; the instance is not touched. -/
def ensureConnection_afterShared (settled : Except JSError AMQPAdapter) :
    Except JSError EnsureValue :=
  match settled with
  | .error e => .error e
  | .ok _ => .ok .undefined

/-- Lines 51-57 after the await of the call that started the attempt.  On
rejection the `finally` clears `_connectPromise` and the error is rethrown
(`.error`).  On fulfilment the adapter is stored, `_connectPromise` cleared,
the current handler written into the adapter, and `_onInit()` invoked (`.ok`:
the call now awaits the promise `_onInit` returned). -/
def ensureConnection_afterConnect (self : AdapterConsumer)
    (settled : Except JSError AMQPAdapter) : AdapterConsumer × Except JSError Unit :=
  match settled with
  | .error e => ({ self with _connectPromise := none }, .error e)
  | .ok adapter =>
    let self1 := { self with _adapter := some adapter }
    let self2 := { self1 with _connectPromise := none }
    let self3 := { self2 with
      _adapter := self2._adapter.map fun a => { a with _errorHandler := self2._errorHandler } }
    (self3, .ok ())

/-- Lines 57-58 after the await of `_onInit()`. -/
def ensureConnection_afterOnInit (settled : Except JSError Unit) :
    Except JSError EnsureValue :=
  match settled with
  | .error e => .error e
  | .ok _ => .ok .this

/-- What a call of `destroy` has done when it first gives up control. -/
inductive DestroyEntry where
  /-- line 62: `_getAdapter` threw -/
  | threw (e : JSError)
  /-- line 63: `adapter.disconnect(options)` was invoked and is awaited -/
  | awaitDisconnect (adapter : AMQPAdapter) (options : Option DestroyOptions)
  deriving DecidableEq, Repr

/-- Lines 61-63 up to the `await`.  `options` is `none` when the caller passes
nothing.  No field of the instance is assigned. -/
def destroy (self : AdapterConsumer) (options : Option DestroyOptions) :
    AdapterConsumer × DestroyEntry :=
  match _getAdapter self with
  | .error e => (self, .threw e)
  | .ok adapter => (self, .awaitDisconnect adapter options)

/-- Lines 63-64 after the await. -/
def destroy_afterDisconnect (settled : Except JSError Unit) : Except JSError Unit :=
  settled

/-! ## The instance on the event loop -/

/-- State of a promise handed out by the broker adapter or by `_onInit`. -/
inductive Promise (α : Type) where
  | pending
  | fulfilled (v : α)
  | rejected (e : JSError)
  deriving DecidableEq, Repr

/-- What an `await` of the promise yields once it is settled. -/
def Promise.settled {α : Type} : Promise α → Option (Except JSError α)
  | .pending => none
  | .fulfilled v => some (.ok v)
  | .rejected e => some (.error e)

/-- The settled state of a promise that was rejected with `e` or fulfilled with `v`. -/
def Promise.settle {α : Type} : Except JSError α → Promise α
  | .error e => .rejected e
  | .ok v => .fulfilled v

/-- One invocation of `AMQPAdapter.connect`: its argument and the promise it
returned.  A fulfilled promise holds the adapter as `connect` made it. -/
structure ConnectCall where
  options : ConnectOptions
  promise : Promise AMQPAdapter
  deriving DecidableEq, Repr

/-- One invocation of `adapter.disconnect`: the adapter it was invoked on, its
argument and the promise it returned. -/
structure DisconnectCall where
  adapter : Nat
  options : Option DestroyOptions
  promise : Promise Unit
  deriving DecidableEq, Repr

/-- A call of an `async` method: where it is suspended, or how it ended. -/
inductive Task where
  /-- a call of `ensureConnection` at line 42, awaiting connect promise `p` of another call -/
  | ensureShared (p : Nat)
  /-- a call of `ensureConnection` at line 51, awaiting the connect promise `p` it created -/
  | ensureOwn (p : Nat)
  /-- a call of `ensureConnection` at line 57, awaiting the promise `q` of `_onInit()` -/
  | ensureOnInit (q : Nat)
  /-- a call of `destroy` at line 63, awaiting disconnect promise `d` -/
  | destroyWait (d : Nat)
  /-- a call of `ensureConnection` that has returned or thrown -/
  | ensureDone (r : Except JSError EnsureValue)
  /-- a call of `destroy` that has returned or thrown -/
  | destroyDone (r : Except JSError Unit)
  deriving DecidableEq, Repr

/-- The instance together with everything it has handed to the outside: the
`AMQPAdapter.connect`, `_onInit` and `disconnect` invocations made so far (in
order, each with its promise) and the method calls made so far. -/
structure Sys where
  self : AdapterConsumer
  connects : List ConnectCall
  onInits : List (Promise Unit)
  disconnects : List DisconnectCall
  tasks : List Task
  deriving DecidableEq, Repr

/-- A new instance on which nothing has been called. -/
def Sys.init : Sys :=
  { self := AdapterConsumer.new, connects := [], onInits := [], disconnects := [], tasks := [] }

/-- What can happen next: a method is called, a promise settles, or a
suspended call is resumed. -/
inductive Action where
  | ensureConnection (arg : Option EnsureArgs)
  | destroy (options : Option DestroyOptions)
  | setErrorHandler (handler : Handler)
  | _setConnectParams (connectParams : Option ConnectOptions)
  /-- connect promise `p` settles: rejected, or fulfilled with a new adapter
  whose `_errorHandler` is the given one -/
  | connectSettles (p : Nat) (r : Except JSError Handler)
  | onInitSettles (q : Nat) (r : Except JSError Unit)
  | disconnectSettles (d : Nat) (r : Except JSError Unit)
  /-- the call numbered `t` continues after its `await` -/
  | resume (t : Nat)
  deriving DecidableEq, Repr

/-- What awaiting connect promise `p` yields, if it is settled. -/
def Sys.connectSettled (s : Sys) (p : Nat) : Option (Except JSError AMQPAdapter) :=
  match s.connects[p]? with
  | some c => c.promise.settled
  | none => none

/-- Resumption of call `t`; nothing happens unless the promise it awaits is settled. -/
def Sys.resume (s : Sys) (t : Nat) : Sys :=
  match s.tasks[t]? with
  | some (.ensureShared p) =>
    match s.connectSettled p with
    | some r => { s with tasks := s.tasks.set t (.ensureDone (ensureConnection_afterShared r)) }
    | none => s
  | some (.ensureOwn p) =>
    match s.connectSettled p with
    | some r =>
      match ensureConnection_afterConnect s.self r with
      | (self1, .error e) =>
        { s with self := self1, tasks := s.tasks.set t (.ensureDone (.error e)) }
      | (self1, .ok _) =>
        { s with self := self1, onInits := s.onInits ++ [.pending],
                 tasks := s.tasks.set t (.ensureOnInit s.onInits.length) }
    | none => s
  | some (.ensureOnInit q) =>
    match (s.onInits[q]?).bind Promise.settled with
    | some r => { s with tasks := s.tasks.set t (.ensureDone (ensureConnection_afterOnInit r)) }
    | none => s
  | some (.destroyWait d) =>
    match (s.disconnects[d]?).bind (fun c => c.promise.settled) with
    | some r => { s with tasks := s.tasks.set t (.destroyDone (destroy_afterDisconnect r)) }
    | none => s
  | _ => s

/-- One step of the system.  An action that is not possible in the state (a
promise that does not exist or is already settled, a call that cannot
continue) leaves the state as it is. -/
def step (s : Sys) : Action → Sys
  | .ensureConnection arg =>
    match ensureConnection s.self arg s.connects.length with
    | (self1, .returned) =>
      { s with self := self1, tasks := s.tasks ++ [.ensureDone (.ok .undefined)] }
    | (self1, .awaitShared p) =>
      { s with self := self1, tasks := s.tasks ++ [.ensureShared p] }
    | (self1, .awaitOwn options p) =>
      { s with self := self1,
               connects := s.connects ++ [{ options := options, promise := .pending }],
               tasks := s.tasks ++ [.ensureOwn p] }
  | .destroy options =>
    match destroy s.self options with
    | (self1, .threw e) =>
      { s with self := self1, tasks := s.tasks ++ [.destroyDone (.error e)] }
    | (self1, .awaitDisconnect adapter opts) =>
      { s with self := self1,
               disconnects := s.disconnects ++
                 [{ adapter := adapter.id, options := opts, promise := .pending }],
               tasks := s.tasks ++ [.destroyWait s.disconnects.length] }
  | .setErrorHandler handler => { s with self := setErrorHandler s.self handler }
  | ._setConnectParams cp => { s with self := _setConnectParams s.self cp }
  | .connectSettles p r =>
    match s.connects[p]? with
    | some c =>
      match c.promise with
      | .pending =>
        let made := r.map fun h => ({ id := p, _errorHandler := h } : AMQPAdapter)
        { s with connects := s.connects.set p { c with promise := Promise.settle made } }
      | _ => s
    | none => s
  | .onInitSettles q r =>
    match s.onInits[q]? with
    | some .pending =>
      { s with onInits := s.onInits.set q (Promise.settle r) }
    | _ => s
  | .disconnectSettles d r =>
    match s.disconnects[d]? with
    | some c =>
      match c.promise with
      | .pending =>
        { s with disconnects := s.disconnects.set d { c with promise := Promise.settle r } }
      | _ => s
    | none => s
  | .resume t => s.resume t

/-- The state after a sequence of actions. -/
def run (s : Sys) (acts : List Action) : Sys :=
  acts.foldl step s

/-- Number of `AMQPAdapter.connect` invocations so far. -/
def Sys.connectCount (s : Sys) : Nat := s.connects.length

/-- Number of `_onInit` invocations so far. -/
def Sys.onInitCount (s : Sys) : Nat := s.onInits.length

/-- Number of `disconnect` invocations so far. -/
def Sys.disconnectCount (s : Sys) : Nat := s.disconnects.length

/-- Attempt `p` is in flight: `AMQPAdapter.connect` was invoked and
its promise has not settled. -/
def Sys.inFlight (s : Sys) (p : Nat) : Prop :=
  ∃ c, s.connects[p]? = some c ∧ c.promise = Promise.pending

/-- Attempt `p` is a connect attempt that produced an adapter. -/
def Sys.succeeded (s : Sys) (p : Nat) : Prop :=
  ∃ c a, s.connects[p]? = some c ∧ c.promise = Promise.fulfilled a

/-- What holds of the instance and its suspended calls in every reachable state. -/
structure SysInv (s : Sys) : Prop where
  /-- a call suspended at line 51 awaits the promise stored in `_connectPromise` -/
  own_marked : ∀ t p : Nat, s.tasks[t]? = some (Task.ensureOwn p) → s.self._connectPromise = some p
  /-- at most one call is suspended at line 51 -/
  own_unique : ∀ t t2 p p2 : Nat, s.tasks[t]? = some (Task.ensureOwn p) →
    s.tasks[t2]? = some (Task.ensureOwn p2) → t = t2
  /-- a stored promise belongs to a call suspended at line 51 -/
  marked_own : ∀ p : Nat, s.self._connectPromise = some p → ∃ t : Nat, s.tasks[t]? = some (Task.ensureOwn p)
  /-- a stored promise is one `connect` returned, and no adapter is stored with it -/
  marked_fresh : ∀ p : Nat, s.self._connectPromise = some p →
    p < s.connects.length ∧ s.self._adapter = none
  /-- an unsettled connect promise is the stored one -/
  pending_marked : ∀ p : Nat, s.inFlight p → s.self._connectPromise = some p
  /-- a fulfilled connect promise is the stored one or its adapter is the stored one -/
  fulfilled_kept : ∀ (p : Nat) c a, s.connects[p]? = some c → c.promise = Promise.fulfilled a →
    a.id = p ∧ (s.self._connectPromise = some p ∨ ∃ b, s.self._adapter = some b ∧ b.id = p)
  /-- the stored adapter comes from a fulfilled connect promise -/
  adapter_made : ∀ b, s.self._adapter = some b → s.succeeded b.id
  /-- the stored adapter carries the instance's handler -/
  handler_installed : ∀ b, s.self._adapter = some b → b._errorHandler = s.self._errorHandler
  /-- the hook `_onInit` has run once if an adapter is stored and not at all otherwise -/
  onInit_once : s.onInits.length = if s.self._adapter.isSome then 1 else 0
  /-- a call suspended at line 42 awaits a promise `connect` returned -/
  shared_real : ∀ t p : Nat, s.tasks[t]? = some (Task.ensureShared p) → p < s.connects.length

/-- The instance is waiting on connect attempt `n`: no adapter is stored, the
promise of attempt `n` is stored and unsettled, and `n` is the latest attempt. -/
structure Waiting (n : Nat) (s : Sys) : Prop where
  inv : SysInv s
  adapter : s.self._adapter = none
  marker : s.self._connectPromise = some n
  count : s.connects.length = n + 1
  pending : s.inFlight n

/-- The handler the instance should hold after `acts`: the one most recently
passed to `setErrorHandler`, or the default if there was none. -/
def lastHandlerSet (acts : List Action) : Handler :=
  acts.foldl (fun h a => match a with | .setErrorHandler f => f | _ => h) defaultErrorHandler

/-! ## Lists of calls -/

theorem getElem?_snoc {α : Type} (l : List α) (a x : α) (i : Nat)
    (h : (l ++ [a])[i]? = some x) : l[i]? = some x ∨ (i = l.length ∧ x = a) := by
  rw [List.getElem?_append] at h
  split at h
  · exact Or.inl h
  · right
    have h0 : i - l.length = 0 := by
      by_contra hne
      simp [List.getElem?_cons] at h
      omega
    simp [h0] at h
    exact ⟨by omega, h.symm⟩

theorem getElem?_bound {α : Type} (l : List α) (x : α) (i : Nat)
    (h : l[i]? = some x) : i < l.length := by
  rcases List.getElem?_eq_some.mp h with ⟨hlt, _⟩
  exact hlt

theorem getElem?_set_some {α : Type} (l : List α) (a x : α) (i j : Nat)
    (h : (l.set i a)[j]? = some x) : (j = i ∧ x = a) ∨ (j ≠ i ∧ l[j]? = some x) := by
  rw [List.getElem?_set] at h
  by_cases hij : i = j
  · subst hij
    simp only [if_true] at h
    split at h
    · left; simp at h; exact ⟨rfl, h.symm⟩
    · simp at h
  · simp only [hij, if_false] at h
    exact Or.inr ⟨fun e => hij e.symm, h⟩

/-! ## The invariant -/

theorem SysInv_init : SysInv Sys.init := by
  constructor <;> simp [Sys.init, AdapterConsumer.new, Sys.inFlight, Sys.succeeded]

theorem SysInv_setErrorHandler {s : Sys} (h : SysInv s) (f : Handler) :
    SysInv (step s (.setErrorHandler f)) := by
  have hp : (setErrorHandler s.self f)._connectPromise = s.self._connectPromise := by
    unfold setErrorHandler; cases s.self._adapter <;> rfl
  have hh : (setErrorHandler s.self f)._errorHandler = f := by
    unfold setErrorHandler; cases s.self._adapter <;> rfl
  have ha : (setErrorHandler s.self f)._adapter =
      s.self._adapter.map fun a => { a with _errorHandler := f } := by
    unfold setErrorHandler; cases s.self._adapter <;> rfl
  constructor
  · intro t p ht; simpa [step, hp] using h.own_marked t p ht
  · intro t t2 p p2 ht ht2; exact h.own_unique t t2 p p2 ht ht2
  · intro p hm; simp only [step, hp] at hm; exact h.marked_own p hm
  · intro p hm; simp only [step, hp] at hm
    have := h.marked_fresh p hm
    simp [step, ha, this]
  · intro p hf; simp only [step, hp]; exact h.pending_marked p hf
  · intro p c a hc hfa
    have := h.fulfilled_kept p c a hc hfa
    refine ⟨this.1, ?_⟩
    rcases this.2 with h1 | ⟨b, hb, hid⟩
    · left; simpa [step, hp] using h1
    · right; simp [step, ha, hb, hid]
  · intro b hb
    simp only [step, ha] at hb
    cases hsa : s.self._adapter with
    | none => simp [hsa] at hb
    | some b0 =>
      simp [hsa] at hb
      subst hb
      exact h.adapter_made b0 hsa
  · intro b hb
    simp only [step, ha] at hb
    cases hsa : s.self._adapter with
    | none => simp [hsa] at hb
    | some b0 =>
      simp [hsa] at hb
      subst hb
      simp [step, hh]
  · simpa [step, ha] using h.onInit_once
  · intro t p ht; exact h.shared_real t p ht


/-- The invariant only looks at three fields of the instance, the connect
promises, the number of `_onInit` invocations and the calls suspended in
`ensureConnection` before line 57. -/
theorem SysInv_frame {s s2 : Sys} (h : SysInv s)
    (ha : s2.self._adapter = s.self._adapter)
    (hh : s2.self._errorHandler = s.self._errorHandler)
    (hp : s2.self._connectPromise = s.self._connectPromise)
    (hc : s2.connects = s.connects)
    (ho : s2.onInits.length = s.onInits.length)
    (hown : ∀ t p : Nat, s2.tasks[t]? = some (Task.ensureOwn p) ↔
      s.tasks[t]? = some (Task.ensureOwn p))
    (hsh : ∀ t p : Nat, s2.tasks[t]? = some (Task.ensureShared p) → p < s.connects.length) :
    SysInv s2 := by
  constructor
  · intro t p ht; rw [hp]; exact h.own_marked t p ((hown t p).mp ht)
  · intro t t2 p p2 ht ht2
    exact h.own_unique t t2 p p2 ((hown t p).mp ht) ((hown t2 p2).mp ht2)
  · intro p hm
    rw [hp] at hm
    rcases h.marked_own p hm with ⟨t, ht⟩
    exact ⟨t, (hown t p).mpr ht⟩
  · intro p hm
    rw [hp] at hm
    rw [hc, ha]; exact h.marked_fresh p hm
  · intro p hf
    rw [hp]; apply h.pending_marked
    simpa [Sys.inFlight, hc] using hf
  · intro p c a hcp hfa
    rw [hc] at hcp
    rw [hp, ha]; exact h.fulfilled_kept p c a hcp hfa
  · intro b hb
    rw [ha] at hb
    simpa [Sys.succeeded, hc] using h.adapter_made b hb
  · intro b hb
    rw [ha] at hb
    rw [hh]; exact h.handler_installed b hb
  · rw [ho, ha]; exact h.onInit_once
  · intro t p ht
    rw [hc]; exact hsh t p ht

theorem SysInv_setConnectParams {s : Sys} (h : SysInv s) (cp : Option ConnectOptions) :
    SysInv (step s (._setConnectParams cp)) := by
  apply SysInv_frame h <;> cases cp <;> simp [step, _setConnectParams]
  all_goals exact h.shared_real

/-- Appending a call that is not suspended in `ensureConnection` keeps the
suspended ones as they are. -/
theorem tasks_snoc_own (ts : List Task) (x : Task) (hx : ∀ p, x ≠ Task.ensureOwn p)
    (t p : Nat) : (ts ++ [x])[t]? = some (Task.ensureOwn p) ↔ ts[t]? = some (Task.ensureOwn p) := by
  constructor
  · intro ht
    rcases getElem?_snoc ts x _ t ht with h1 | ⟨_, h2⟩
    · exact h1
    · exact absurd h2.symm (hx p)
  · intro ht
    rw [List.getElem?_append_left (getElem?_bound ts _ t ht)]; exact ht

theorem tasks_snoc_shared (ts : List Task) (x : Task) (hx : ∀ p, x ≠ Task.ensureShared p)
    (t p : Nat) (ht : (ts ++ [x])[t]? = some (Task.ensureShared p)) :
    ts[t]? = some (Task.ensureShared p) := by
  rcases getElem?_snoc ts x _ t ht with h1 | ⟨_, h2⟩
  · exact h1
  · exact absurd h2.symm (hx p)

/-- Replacing a call that is not suspended at line 51 by a finished or later
stage keeps the calls suspended at line 51 as they are. -/
theorem tasks_set_own (ts : List Task) (x y : Task) (i : Nat) (hi : ts[i]? = some y)
    (hx : ∀ p, x ≠ Task.ensureOwn p) (hy : ∀ p, y ≠ Task.ensureOwn p)
    (t p : Nat) : (ts.set i x)[t]? = some (Task.ensureOwn p) ↔ ts[t]? = some (Task.ensureOwn p) := by
  constructor
  · intro ht
    rcases getElem?_set_some ts x _ i t ht with ⟨_, h2⟩ | ⟨_, h2⟩
    · exact absurd h2.symm (hx p)
    · exact h2
  · intro ht
    have hne : i ≠ t := by
      intro e; subst e
      rw [hi] at ht
      exact hy p (Option.some.inj ht)
    rw [List.getElem?_set_ne hne]; exact ht

theorem tasks_set_shared (ts : List Task) (x : Task) (i : Nat)
    (hx : ∀ p, x ≠ Task.ensureShared p)
    (t p : Nat) (ht : (ts.set i x)[t]? = some (Task.ensureShared p)) :
    ts[t]? = some (Task.ensureShared p) := by
  rcases getElem?_set_some ts x _ i t ht with ⟨_, h2⟩ | ⟨_, h2⟩
  · exact absurd h2.symm (hx p)
  · exact h2

theorem SysInv_destroy {s : Sys} (h : SysInv s) (o : Option DestroyOptions) :
    SysInv (step s (.destroy o)) := by
  have hself : (destroy s.self o).1 = s.self := by
    unfold destroy; cases _getAdapter s.self <;> rfl
  cases hd : destroy s.self o with
  | mk self1 e =>
    have h1 : self1 = s.self := by rw [← hself, hd]
    subst h1
    cases e with
    | threw err =>
      apply SysInv_frame h <;> simp only [step, hd]
      · intro t p; exact tasks_snoc_own _ _ (by simp) t p
      · intro t p ht
        exact h.shared_real t p (tasks_snoc_shared _ _ (by simp) t p ht)
    | awaitDisconnect a opts =>
      apply SysInv_frame h <;> simp only [step, hd]
      · intro t p; exact tasks_snoc_own _ _ (by simp) t p
      · intro t p ht
        exact h.shared_real t p (tasks_snoc_shared _ _ (by simp) t p ht)

theorem SysInv_onInitSettles {s : Sys} (h : SysInv s) (q : Nat) (r : Except JSError Unit) :
    SysInv (step s (.onInitSettles q r)) := by
  simp only [step]
  split
  · apply SysInv_frame h <;> simp
    exact h.shared_real
  · exact h

theorem SysInv_disconnectSettles {s : Sys} (h : SysInv s) (d : Nat) (r : Except JSError Unit) :
    SysInv (step s (.disconnectSettles d r)) := by
  simp only [step]
  split
  · split
    · apply SysInv_frame h <;> simp
      exact h.shared_real
    · exact h
  · exact h


/-- While no promise is stored no call is suspended at line 51. -/
theorem SysInv.no_own {s : Sys} (h : SysInv s) (hm : s.self._connectPromise = none)
    (t p : Nat) : s.tasks[t]? ≠ some (Task.ensureOwn p) := by
  intro ht
  have := h.own_marked t p ht
  rw [hm] at this
  exact Option.noConfusion this

theorem SysInv_ensureConnection {s : Sys} (h : SysInv s) (arg : Option EnsureArgs) :
    SysInv (step s (.ensureConnection arg)) := by
  cases ha : s.self._adapter with
  | some a =>
    have he : ensureConnection s.self arg s.connects.length = (s.self, .returned) := by
      simp [ensureConnection, ha]
    apply SysInv_frame h <;> simp only [step, he]
    · intro t p; exact tasks_snoc_own _ _ (by simp) t p
    · intro t p ht
      exact h.shared_real t p (tasks_snoc_shared _ _ (by simp) t p ht)
  | none =>
    cases hm : s.self._connectPromise with
    | some p0 =>
      have he : ensureConnection s.self arg s.connects.length = (s.self, .awaitShared p0) := by
        simp [ensureConnection, ha, hm]
      apply SysInv_frame h <;> simp only [step, he]
      · intro t p; exact tasks_snoc_own _ _ (by simp) t p
      · intro t p ht
        rcases getElem?_snoc _ _ _ t ht with h1 | ⟨_, h2⟩
        · exact h.shared_real t p h1
        · cases h2
          exact (h.marked_fresh _ hm).1
    | none =>
      have he : ensureConnection s.self arg s.connects.length =
          ({ s.self with _connectPromise := some s.connects.length },
            .awaitOwn (mergeConnectParams (arg.getD { connectParams := none }).connectParams
              s.self._connectParams) s.connects.length) := by
        simp [ensureConnection, ha, hm]
      have hno := h.no_own hm
      constructor
      · intro t p ht
        simp only [step, he] at ht ⊢
        rcases getElem?_snoc _ _ _ t ht with h1 | ⟨_, h2⟩
        · exact absurd h1 (hno t p)
        · cases h2; rfl
      · intro t t2 p p2 ht ht2
        simp only [step, he] at ht ht2
        rcases getElem?_snoc _ _ _ t ht with h1 | ⟨e1, _⟩
        · exact absurd h1 (hno t p)
        · rcases getElem?_snoc _ _ _ t2 ht2 with h2 | ⟨e2, _⟩
          · exact absurd h2 (hno t2 p2)
          · rw [e1, e2]
      · intro p hp
        simp only [step, he] at hp ⊢
        cases hp
        exact ⟨s.tasks.length, List.getElem?_concat_length _ _⟩
      · intro p hp
        simp only [step, he] at hp ⊢
        cases hp
        simp [ha]
      · intro p hf
        simp only [step, he, Sys.inFlight] at hf ⊢
        rcases hf with ⟨c, hc, hpend⟩
        rcases getElem?_snoc _ _ _ p hc with h1 | ⟨e1, _⟩
        · have := h.pending_marked p ⟨c, h1, hpend⟩
          rw [hm] at this; exact Option.noConfusion this
        · rw [e1]
      · intro p c a hc hfa
        simp only [step, he] at hc ⊢
        rcases getElem?_snoc _ _ _ p hc with h1 | ⟨_, e2⟩
        · rcases (h.fulfilled_kept p c a h1 hfa).2 with h2 | ⟨b, hb, _⟩
          · rw [hm] at h2; exact Option.noConfusion h2
          · rw [ha] at hb; exact Option.noConfusion hb
        · rw [e2] at hfa; exact Promise.noConfusion hfa
      · intro b hb
        simp only [step, he] at hb
        rw [ha] at hb; exact Option.noConfusion hb
      · intro b hb
        simp only [step, he] at hb
        rw [ha] at hb; exact Option.noConfusion hb
      · simpa [step, he] using h.onInit_once
      · intro t p ht
        simp only [step, he] at ht ⊢
        have := h.shared_real t p (tasks_snoc_shared _ _ (by simp) t p ht)
        simp; omega

theorem SysInv_connectSettles {s : Sys} (h : SysInv s) (p : Nat) (r : Except JSError Handler) :
    SysInv (step s (.connectSettles p r)) := by
  simp only [step]
  cases hc : s.connects[p]? with
  | none => exact h
  | some c =>
    cases hpc : c.promise with
    | fulfilled v => simpa [hpc] using h
    | rejected e => simpa [hpc] using h
    | pending =>
      simp only [hpc]
      have hmark := h.pending_marked p ⟨c, hc, hpc⟩
      constructor
      · exact h.own_marked
      · exact h.own_unique
      · exact h.marked_own
      · intro q hq
        simpa using h.marked_fresh q hq
      · intro q hf
        simp only [Sys.inFlight] at hf
        rcases hf with ⟨c2, hc2, hpend⟩
        rcases getElem?_set_some _ _ _ p q hc2 with ⟨_, e2⟩ | ⟨_, h2⟩
        · rw [e2] at hpend
          cases r <;> simp [Promise.settle, Except.map] at hpend
        · exact h.pending_marked q ⟨c2, h2, hpend⟩
      · intro q c2 a hc2 hfa
        rcases getElem?_set_some _ _ _ p q hc2 with ⟨e1, e2⟩ | ⟨_, h2⟩
        · rw [e2] at hfa
          cases r with
          | error e => simp [Promise.settle, Except.map] at hfa
          | ok f =>
            simp [Promise.settle, Except.map] at hfa
            subst hfa
            subst e1
            exact ⟨rfl, Or.inl hmark⟩
        · exact h.fulfilled_kept q c2 a h2 hfa
      · intro b hb
        rcases h.adapter_made b hb with ⟨c2, a, hc2, hfa⟩
        have hne : p ≠ b.id := by
          intro e
          rw [← e, hc] at hc2
          cases hc2
          rw [hpc] at hfa; exact Promise.noConfusion hfa
        exact ⟨c2, a, by simpa [List.getElem?_set_ne hne] using hc2, hfa⟩
      · exact h.handler_installed
      · exact h.onInit_once
      · intro t q ht
        simpa using h.shared_real t q ht


/-- Resuming the call suspended at line 51 on a settled promise: what the
next state is. -/
theorem resume_own_eq {s : Sys} {t p : Nat} {r : Except JSError AMQPAdapter}
    (ht : s.tasks[t]? = some (Task.ensureOwn p)) (hr : s.connectSettled p = some r) :
    s.resume t =
      match r with
      | .error e =>
        { s with self := { s.self with _connectPromise := none },
                 tasks := s.tasks.set t (.ensureDone (.error e)) }
      | .ok a =>
        { s with self := { s.self with
                   _adapter := some { a with _errorHandler := s.self._errorHandler },
                   _connectPromise := none },
                 onInits := s.onInits ++ [.pending],
                 tasks := s.tasks.set t (.ensureOnInit s.onInits.length) } := by
  cases r <;> simp [Sys.resume, ht, hr, ensureConnection_afterConnect]

theorem connectSettled_some {s : Sys} {p : Nat} {r : Except JSError AMQPAdapter}
    (hr : s.connectSettled p = some r) :
    ∃ c, s.connects[p]? = some c ∧ c.promise.settled = some r := by
  unfold Sys.connectSettled at hr
  cases hc : s.connects[p]? with
  | none => simp [hc] at hr
  | some c => exact ⟨c, rfl, by simpa [hc] using hr⟩

theorem SysInv_resume_own {s : Sys} (h : SysInv s) {t p : Nat}
    {r : Except JSError AMQPAdapter}
    (ht : s.tasks[t]? = some (Task.ensureOwn p)) (hr : s.connectSettled p = some r) :
    SysInv (s.resume t) := by
  rw [resume_own_eq ht hr]
  have hmark := h.own_marked t p ht
  have hnone := (h.marked_fresh p hmark).2
  rcases connectSettled_some hr with ⟨c, hc, hset⟩
  have hnoown : ∀ (x : Task) (t2 p2 : Nat), (∀ q, x ≠ Task.ensureOwn q) →
      (s.tasks.set t x)[t2]? ≠ some (Task.ensureOwn p2) := by
    intro x t2 p2 hx ht2
    rcases getElem?_set_some _ _ _ t t2 ht2 with ⟨_, e2⟩ | ⟨hne, h2⟩
    · exact hx p2 e2.symm
    · exact hne (h.own_unique t2 t p2 p h2 ht)
  have hnopend : ∀ q, ¬ s.inFlight q := by
    intro q hq
    have e := h.pending_marked q hq
    rw [hmark] at e
    cases e
    rcases hq with ⟨c2, hc2, hpend⟩
    rw [hc] at hc2; cases hc2
    rw [hpend] at hset
    simp [Promise.settled] at hset
  cases r with
  | error e =>
    have hrej : c.promise = .rejected e := by
      cases hcp : c.promise <;> simp [hcp, Promise.settled] at hset
      rw [hset]
    constructor
    · intro t2 p2 ht2; exact absurd ht2 (hnoown _ t2 p2 (by simp))
    · intro t2 t3 p2 p3 ht2; exact absurd ht2 (hnoown _ t2 p2 (by simp))
    · intro q hq; simp at hq
    · intro q hq; simp at hq
    · intro q hq; exact absurd hq (hnopend q)
    · intro q c2 a hc2 hfa
      have hk := h.fulfilled_kept q c2 a hc2 hfa
      refine ⟨hk.1, ?_⟩
      rcases hk.2 with h2 | h2
      · rw [hmark] at h2; cases h2
        rw [hc] at hc2; cases hc2
        rw [hrej] at hfa; exact Promise.noConfusion hfa
      · exact Or.inr h2
    · exact h.adapter_made
    · exact h.handler_installed
    · exact h.onInit_once
    · intro t2 q ht2
      exact h.shared_real t2 q (tasks_set_shared _ _ t (by simp) t2 q ht2)
  | ok a =>
    have hful : c.promise = .fulfilled a := by
      cases hcp : c.promise <;> simp [hcp, Promise.settled] at hset
      rw [hset]
    have hid := (h.fulfilled_kept p c a hc hful).1
    constructor
    · intro t2 p2 ht2; exact absurd ht2 (hnoown _ t2 p2 (by simp))
    · intro t2 t3 p2 p3 ht2; exact absurd ht2 (hnoown _ t2 p2 (by simp))
    · intro q hq; simp at hq
    · intro q hq; simp at hq
    · intro q hq; exact absurd hq (hnopend q)
    · intro q c2 a2 hc2 hfa
      have hk := h.fulfilled_kept q c2 a2 hc2 hfa
      refine ⟨hk.1, Or.inr ?_⟩
      rcases hk.2 with h2 | ⟨b, hb, _⟩
      · rw [hmark] at h2; cases h2
        exact ⟨_, rfl, hid⟩
      · rw [hnone] at hb; exact Option.noConfusion hb
    · intro b hb
      simp at hb
      subst hb
      exact ⟨c, a, by simpa [hid] using hc, hful⟩
    · intro b hb
      simp at hb
      subst hb
      rfl
    · have := h.onInit_once
      rw [hnone] at this
      simp at this
      simp [this]
    · intro t2 q ht2
      exact h.shared_real t2 q (tasks_set_shared _ _ t (by simp) t2 q ht2)

theorem SysInv_resume {s : Sys} (h : SysInv s) (t : Nat) : SysInv (s.resume t) := by
  cases ht : s.tasks[t]? with
  | none => simpa [Sys.resume, ht] using h
  | some x =>
    cases x with
    | ensureOwn p =>
      cases hr : s.connectSettled p with
      | none => simpa [Sys.resume, ht, hr] using h
      | some r => exact SysInv_resume_own h ht hr
    | ensureShared p =>
      cases hr : s.connectSettled p with
      | none => simpa [Sys.resume, ht, hr] using h
      | some r =>
        apply SysInv_frame h <;> simp only [Sys.resume, ht, hr]
        · intro t2 p2; exact tasks_set_own _ _ _ t ht (by simp) (by simp) t2 p2
        · intro t2 p2 ht2
          exact h.shared_real t2 p2 (tasks_set_shared _ _ t (by simp) t2 p2 ht2)
    | ensureOnInit q =>
      cases hr : (s.onInits[q]?).bind Promise.settled with
      | none => simpa [Sys.resume, ht, hr] using h
      | some r =>
        apply SysInv_frame h <;> simp only [Sys.resume, ht, hr]
        · intro t2 p2; exact tasks_set_own _ _ _ t ht (by simp) (by simp) t2 p2
        · intro t2 p2 ht2
          exact h.shared_real t2 p2 (tasks_set_shared _ _ t (by simp) t2 p2 ht2)
    | destroyWait d =>
      cases hr : (s.disconnects[d]?).bind (fun c => c.promise.settled) with
      | none => simpa [Sys.resume, ht, hr] using h
      | some r =>
        apply SysInv_frame h <;> simp only [Sys.resume, ht, hr]
        · intro t2 p2; exact tasks_set_own _ _ _ t ht (by simp) (by simp) t2 p2
        · intro t2 p2 ht2
          exact h.shared_real t2 p2 (tasks_set_shared _ _ t (by simp) t2 p2 ht2)
    | ensureDone r => simpa [Sys.resume, ht] using h
    | destroyDone r => simpa [Sys.resume, ht] using h

theorem SysInv_step {s : Sys} (h : SysInv s) (a : Action) : SysInv (step s a) := by
  cases a with
  | ensureConnection arg => exact SysInv_ensureConnection h arg
  | destroy o => exact SysInv_destroy h o
  | setErrorHandler f => exact SysInv_setErrorHandler h f
  | _setConnectParams cp => exact SysInv_setConnectParams h cp
  | connectSettles p r => exact SysInv_connectSettles h p r
  | onInitSettles q r => exact SysInv_onInitSettles h q r
  | disconnectSettles d r => exact SysInv_disconnectSettles h d r
  | resume t => exact SysInv_resume h t

theorem SysInv_run {s : Sys} (h : SysInv s) (acts : List Action) : SysInv (run s acts) := by
  induction acts generalizing s with
  | nil => exact h
  | cons a rest ih => exact ih (SysInv_step h a)

/-! ## The claims -/

/-- How a step on a connected instance records an `ensureConnection` call. -/
theorem step_ensureConnection_connected (s : Sys) (b : AMQPAdapter) (arg : Option EnsureArgs)
    (hb : s.self._adapter = some b) :
    step s (.ensureConnection arg) =
      { s with tasks := s.tasks ++ [.ensureDone (.ok .undefined)] } := by
  have he : ensureConnection s.self arg s.connects.length = (s.self, .returned) := by
    simp [ensureConnection, hb]
  simp [step, he]

/-- C2. `ensureConnection` on an instance whose `_adapter` is set, for every
argument: the call returns at once (successfully, value `undefined`), the four
fields are what they were, and neither `AMQPAdapter.connect` nor `_onInit` nor
`disconnect` is invoked; any number of such calls leaves the same instance
state as one call (only the finished calls are added to the record). -/
theorem ensureConnection_connected_noop (s : Sys) (a : AMQPAdapter)
    (hconn : s.self._adapter = some a) :
    (∀ arg fresh, ensureConnection s.self arg fresh = (s.self, .returned)) ∧
    (∀ arg, step s (.ensureConnection arg) =
      { s with tasks := s.tasks ++ [.ensureDone (.ok .undefined)] }) ∧
    (∀ args : List (Option EnsureArgs),
      run s (args.map Action.ensureConnection) =
        { s with tasks := s.tasks ++ args.map fun _ => Task.ensureDone (.ok .undefined) }) := by
  have h1 : ∀ (self : AdapterConsumer) (b : AMQPAdapter), self._adapter = some b →
      ∀ arg fresh, ensureConnection self arg fresh = (self, .returned) := by
    intro self b hb arg fresh
    simp [ensureConnection, hb]
  have h2 : ∀ (s : Sys) (b : AMQPAdapter), s.self._adapter = some b →
      ∀ arg, step s (.ensureConnection arg) =
        { s with tasks := s.tasks ++ [.ensureDone (.ok .undefined)] } :=
    fun s b hb arg => step_ensureConnection_connected s b arg hb
  refine ⟨h1 s.self a hconn, h2 s a hconn, ?_⟩
  intro args
  induction args generalizing s with
  | nil => simp [run]
  | cons x rest ih =>
    have hs := h2 s a hconn x
    have hrun : run s ((x :: rest).map Action.ensureConnection) =
        run (step s (.ensureConnection x)) (rest.map Action.ensureConnection) := rfl
    rw [hrun, hs, ih _ (by simpa using hconn)]
    simp

/-- Witness for C2: a connected instance, called twice. -/
theorem ensureConnection_connected_noop_witness :
    run { Sys.init with self := { AdapterConsumer.new with _adapter := some ⟨0, 0⟩ } }
        [.ensureConnection none, .ensureConnection (some ⟨some [("url", "amqp://h")]⟩)] =
      { Sys.init with
          self := { AdapterConsumer.new with _adapter := some ⟨0, 0⟩ },
          tasks := [.ensureDone (.ok .undefined), .ensureDone (.ok .undefined)] } :=
  (ensureConnection_connected_noop
    { Sys.init with self := { AdapterConsumer.new with _adapter := some ⟨0, 0⟩ } } ⟨0, 0⟩ rfl).2.2
    [none, some ⟨some [("url", "amqp://h")]⟩]

/-- C4. `setErrorHandler(h)` stores `h` as the instance's handler and, when an
adapter is stored, writes `h` into that same adapter; `_connectPromise` and
`_connectParams` are untouched, no adapter is stored or dropped, and as a step
of the system it invokes nothing (no connect, `_onInit` or disconnect) and
resumes no call.  With no adapter stored only `_errorHandler` changes. -/
theorem setErrorHandler_installs (s : Sys) (h : Handler) :
    setErrorHandler s.self h =
      { s.self with
          _errorHandler := h,
          _adapter := s.self._adapter.map fun a => { a with _errorHandler := h } } ∧
    step s (.setErrorHandler h) = { s with self := setErrorHandler s.self h } ∧
    (step s (.setErrorHandler h)).connectCount = s.connectCount ∧
    (step s (.setErrorHandler h)).self._connectPromise = s.self._connectPromise ∧
    (step s (.setErrorHandler h)).self._connectParams = s.self._connectParams ∧
    (step s (.setErrorHandler h)).self._adapter.map AMQPAdapter.id =
      s.self._adapter.map AMQPAdapter.id := by
  have h0 : setErrorHandler s.self h =
      { s.self with
          _errorHandler := h,
          _adapter := s.self._adapter.map fun a => { a with _errorHandler := h } } := by
    unfold setErrorHandler
    cases s.self._adapter <;> rfl
  refine ⟨h0, rfl, rfl, ?_, ?_, ?_⟩
  · simp [step, h0]
  · simp [step, h0]
  · simp only [step, h0]
    cases s.self._adapter <;> rfl

/-- C6. `destroy` with no adapter stored, for every options argument: the call
fails with the error of `_getAdapter`, no `disconnect` is invoked and the fields
of the instance are unchanged; and `destroy` fails before reaching `disconnect`
exactly when no adapter is stored. -/
theorem destroy_not_connected (s : Sys) (options : Option DestroyOptions) :
    ((destroy s.self options).2 = .threw notConnectedError ↔ s.self._adapter = none) ∧
    ((∃ e, (destroy s.self options).2 = .threw e) ↔ s.self._adapter = none) ∧
    (destroy s.self options).1 = s.self ∧
    (s.self._adapter = none →
      step s (.destroy options) =
        { s with tasks := s.tasks ++ [.destroyDone (.error notConnectedError)] }) := by
  cases ha : s.self._adapter with
  | none =>
    have hd : destroy s.self options = (s.self, .threw notConnectedError) := by
      simp [destroy, _getAdapter, ha]
    refine ⟨by simp [hd], by simp [hd], by simp [hd], ?_⟩
    intro _
    simp [step, hd]
  | some a =>
    have hd : destroy s.self options = (s.self, .awaitDisconnect a options) := by
      simp [destroy, _getAdapter, ha]
    refine ⟨by simp [hd], by simp [hd], by simp [hd], ?_⟩
    intro hn
    exact Option.noConfusion hn

/-- Witness for C6: `destroy` on a new instance. -/
theorem destroy_not_connected_witness :
    step Sys.init (.destroy (some ⟨some 1000⟩)) =
      { Sys.init with tasks := [.destroyDone (.error notConnectedError)] } :=
  (destroy_not_connected Sys.init (some ⟨some 1000⟩)).2.2.2 rfl


/-- How a step on a connected instance records a `destroy` call. -/
theorem step_destroy_connected (s : Sys) (a : AMQPAdapter) (o : Option DestroyOptions)
    (hconn : s.self._adapter = some a) :
    step s (.destroy o) =
      { s with
          disconnects := s.disconnects ++ [{ adapter := a.id, options := o, promise := .pending }],
          tasks := s.tasks ++ [.destroyWait s.disconnects.length] } := by
  have hd : destroy s.self o = (s.self, .awaitDisconnect a o) := by
    simp [destroy, _getAdapter, hconn]
  simp [step, hd]

/-- Resuming a call suspended in `destroy`. -/
theorem resume_destroyWait (s : Sys) (t d : Nat) (c : DisconnectCall)
    (ht : s.tasks[t]? = some (Task.destroyWait d)) (hd : s.disconnects[d]? = some c) :
    s.resume t =
      match c.promise.settled with
      | none => s
      | some r => { s with tasks := s.tasks.set t (.destroyDone r) } := by
  cases hs : c.promise.settled <;>
    simp [Sys.resume, ht, hd, hs, destroy_afterDisconnect]

/-- C7. `destroy` on a connected instance invokes `disconnect` once, on the
stored adapter, with the caller's options as they were given; the call stays
suspended while that disconnect is unsettled, and once it settles the call
returns if it was fulfilled and throws the same error if it was rejected,
without invoking `disconnect` again. -/
theorem destroy_forwards_disconnect (s : Sys) (a : AMQPAdapter)
    (options : Option DestroyOptions) (hconn : s.self._adapter = some a) :
    let d := s.disconnects.length
    let t := s.tasks.length
    let s1 := step s (.destroy options)
    destroy s.self options = (s.self, .awaitDisconnect a options) ∧
    s1 = { s with
            disconnects := s.disconnects ++
              [{ adapter := a.id, options := options, promise := .pending }],
            tasks := s.tasks ++ [.destroyWait d] } ∧
    s1.resume t = s1 ∧
    ∀ r : Except JSError Unit,
      (step (step s1 (.disconnectSettles d r)) (.resume t)).tasks[t]? =
          some (.destroyDone r) ∧
      (step (step s1 (.disconnectSettles d r)) (.resume t)).disconnectCount =
          s.disconnectCount + 1 := by
  intro d t s1
  have hs1 : s1 = { s with
            disconnects := s.disconnects ++
              [{ adapter := a.id, options := options, promise := .pending }],
            tasks := s.tasks ++ [.destroyWait d] } :=
    step_destroy_connected s a options hconn
  have ht : s1.tasks[t]? = some (Task.destroyWait d) := by
    rw [hs1]; exact List.getElem?_concat_length _ _
  have hd : s1.disconnects[d]? =
      some { adapter := a.id, options := options, promise := .pending } := by
    rw [hs1]; exact List.getElem?_concat_length _ _
  refine ⟨by simp [destroy, _getAdapter, hconn], hs1, ?_, ?_⟩
  · rw [resume_destroyWait s1 t d _ ht hd]; rfl
  · intro r
    have h2 : step s1 (.disconnectSettles d r) =
        { s1 with disconnects := s1.disconnects.set d ⟨a.id, options, Promise.settle r⟩ } := by
      simp [step, hd]
    have hlen : d < s1.disconnects.length := getElem?_bound _ _ _ hd
    have ht2 : (step s1 (.disconnectSettles d r)).tasks[t]? = some (Task.destroyWait d) := by
      rw [h2]; exact ht
    have hd2 : (step s1 (.disconnectSettles d r)).disconnects[d]? =
        some { adapter := a.id, options := options, promise := Promise.settle r } := by
      rw [h2]; exact List.getElem?_set_self hlen
    have hset : (Promise.settle r).settled = some r := by
      cases r <;> rfl
    have hres : step (step s1 (.disconnectSettles d r)) (.resume t) =
        (step s1 (.disconnectSettles d r)).resume t := rfl
    rw [hres, resume_destroyWait _ t d _ ht2 hd2]
    simp only [hset]
    have htl : t < s1.tasks.length := getElem?_bound _ _ _ ht
    constructor
    · rw [h2]; exact List.getElem?_set_self htl
    · rw [h2, hs1]; simp [Sys.disconnectCount]

/-- Witness for C7: `destroy` with `gracefulStopTimeout` 1000 on a connected
consumer, the disconnect then failing. -/
theorem destroy_forwards_disconnect_witness :
    let s : Sys := { Sys.init with self := { AdapterConsumer.new with _adapter := some ⟨0, 0⟩ } }
    step s (.destroy (some ⟨some 1000⟩)) =
        { s with disconnects := [{ adapter := 0, options := some ⟨some 1000⟩, promise := .pending }],
                 tasks := [.destroyWait 0] } ∧
      (run s [.destroy (some ⟨some 1000⟩), .disconnectSettles 0 (.error ⟨"Error", "timeout"⟩),
              .resume 0]).tasks[0]? = some (.destroyDone (.error ⟨"Error", "timeout"⟩)) :=
  have h := destroy_forwards_disconnect
    { Sys.init with self := { AdapterConsumer.new with _adapter := some ⟨0, 0⟩ } } ⟨0, 0⟩
    (some ⟨some 1000⟩) rfl
  ⟨h.2.1, (h.2.2.2 (.error ⟨"Error", "timeout"⟩)).1⟩

/-- C8. When `ensureConnection` starts a connect attempt (no adapter stored,
no promise stored) the options handed to `AMQPAdapter.connect` are
`mergeConnectParams` of the call's `connectParams` and the stored
`_connectParams`: every field of the override reads as in the override, every
other field reads as in the stored defaults, and without an override the
stored defaults are passed as they are.  `_connectParams` is not assigned. -/
theorem ensureConnection_merges_params (s : Sys) (arg : Option EnsureArgs)
    (hidle : s.self._adapter = none ∧ s.self._connectPromise = none) :
    let override := (arg.getD { connectParams := none }).connectParams
    let options := mergeConnectParams override s.self._connectParams
    step s (.ensureConnection arg) =
      { s with
          self := { s.self with _connectPromise := some s.connects.length },
          connects := s.connects ++ [{ options := options, promise := .pending }],
          tasks := s.tasks ++ [.ensureOwn s.connects.length] } ∧
    (step s (.ensureConnection arg)).self._connectParams = s.self._connectParams ∧
    (∀ o k v, override = some o → o.field k = some v → options.field k = some v) ∧
    (∀ o k, override = some o → o.field k = none →
      options.field k = (s.self._connectParams.getD []).field k) ∧
    (override = none → options = s.self._connectParams.getD []) := by
  intro override options
  have he : ensureConnection s.self arg s.connects.length =
      ({ s.self with _connectPromise := some s.connects.length },
        .awaitOwn options s.connects.length) := by
    simp [ensureConnection, hidle.1, hidle.2, options, override]
  have hs : step s (.ensureConnection arg) =
      { s with
          self := { s.self with _connectPromise := some s.connects.length },
          connects := s.connects ++ [{ options := options, promise := .pending }],
          tasks := s.tasks ++ [.ensureOwn s.connects.length] } := by
    simp [step, he]
  refine ⟨hs, by rw [hs], ?_, ?_, ?_⟩
  · intro o k v ho hk
    simp only [options, ho, mergeConnectParams, ConnectOptions.field] at hk ⊢
    rw [List.lookup_append, hk]; rfl
  · intro o k ho hk
    simp only [options, ho, mergeConnectParams, ConnectOptions.field] at hk ⊢
    rw [List.lookup_append, hk]; rfl
  · intro ho
    simp only [options, ho, mergeConnectParams]

/-- Witness for C8: defaults `{url, heartbeat}`, override `{url}`. -/
theorem ensureConnection_merges_params_witness :
    (step { Sys.init with self := { AdapterConsumer.new with
              _connectParams := some [("url", "amqp://a"), ("heartbeat", "5")] } }
        (.ensureConnection (some ⟨some [("url", "amqp://b")]⟩))).connects =
      [{ options := [("url", "amqp://b"), ("url", "amqp://a"), ("heartbeat", "5")],
         promise := .pending }] ∧
      ConnectOptions.field
        (mergeConnectParams (some [("url", "amqp://b")])
          (some [("url", "amqp://a"), ("heartbeat", "5")])) "url" = some "amqp://b" ∧
      ConnectOptions.field
        (mergeConnectParams (some [("url", "amqp://b")])
          (some [("url", "amqp://a"), ("heartbeat", "5")])) "heartbeat" = some "5" :=
  have h := ensureConnection_merges_params
    { Sys.init with self := { AdapterConsumer.new with
        _connectParams := some [("url", "amqp://a"), ("heartbeat", "5")] } }
    (some ⟨some [("url", "amqp://b")]⟩) ⟨rfl, rfl⟩
  ⟨congrArg Sys.connects h.1,
   h.2.2.1 [("url", "amqp://b")] "url" "amqp://b" rfl (by decide),
   h.2.2.2.1 [("url", "amqp://b")] "heartbeat" rfl (by decide)⟩

theorem set_snoc {α : Type} (l : List α) (x y : α) : (l ++ [x]).set l.length y = l ++ [y] := by
  induction l with
  | nil => rfl
  | cons z rest ih => simp [List.set, ih]

/-- A whole `destroy` on a connected instance: the call, the disconnect
settling with `r`, the call resuming. -/
theorem run_destroy_connected (s : Sys) (a : AMQPAdapter) (o : Option DestroyOptions)
    (r : Except JSError Unit) (hconn : s.self._adapter = some a) :
    run s [.destroy o, .disconnectSettles s.disconnects.length r, .resume s.tasks.length] =
      { s with
          disconnects := s.disconnects ++ [{ adapter := a.id, options := o, promise := Promise.settle r }],
          tasks := s.tasks ++ [.destroyDone r] } := by
  have hset : (Promise.settle r).settled = some r := by cases r <;> rfl
  simp only [run, List.foldl]
  rw [step_destroy_connected s a o hconn]
  simp [step, Sys.resume, set_snoc, hset, destroy_afterDisconnect]

/-- C9. `destroy` assigns no field of the instance: neither the call, nor its
failure on an unconnected instance, nor its resumption after the disconnect
settled changes `_adapter`, `_connectPromise`, `_connectParams` or
`_errorHandler`.  So after a completed (or failed) `destroy` on a connected
consumer the adapter is still stored: `ensureConnection` returns at once
without invoking `AMQPAdapter.connect`, and a second `destroy` invokes
`disconnect` again on the same adapter instead of failing as not connected. -/
theorem destroy_keeps_instance (s : Sys) (a : AMQPAdapter) (hconn : s.self._adapter = some a)
    (o o2 : Option DestroyOptions) (r : Except JSError Unit) (arg : Option EnsureArgs) :
    let s1 := run s [.destroy o, .disconnectSettles s.disconnects.length r, .resume s.tasks.length]
    (∀ (self0 : AdapterConsumer) (o0 : Option DestroyOptions), (destroy self0 o0).1 = self0) ∧
    (∀ (s0 : Sys) (t0 d0 : Nat), s0.tasks[t0]? = some (Task.destroyWait d0) →
      (s0.resume t0).self = s0.self) ∧
    s1.self = s.self ∧
    s1.tasks[s.tasks.length]? = some (.destroyDone r) ∧
    step s1 (.ensureConnection arg) =
      { s1 with tasks := s1.tasks ++ [.ensureDone (.ok .undefined)] } ∧
    step s1 (.destroy o2) =
      { s1 with
          disconnects := s1.disconnects ++ [{ adapter := a.id, options := o2, promise := .pending }],
          tasks := s1.tasks ++ [.destroyWait s1.disconnects.length] } := by
  intro s1
  have hs1 : s1 = { s with
      disconnects := s.disconnects ++ [{ adapter := a.id, options := o, promise := Promise.settle r }],
      tasks := s.tasks ++ [.destroyDone r] } := run_destroy_connected s a o r hconn
  have hconn1 : s1.self._adapter = some a := by rw [hs1]; exact hconn
  refine ⟨?_, ?_, by rw [hs1], ?_, ?_, step_destroy_connected s1 a o2 hconn1⟩
  · intro self0 o0
    unfold destroy
    cases _getAdapter self0 <;> rfl
  · intro s0 t0 d0 ht0
    simp only [Sys.resume, ht0]
    split <;> rfl
  · rw [hs1]; exact List.getElem?_concat_length _ _
  · exact step_ensureConnection_connected s1 a arg hconn1

/-- Witness for C9: connect, destroy, then `ensureConnection` and `destroy` again. -/
theorem destroy_keeps_instance_witness :
    let s := run Sys.init [.ensureConnection none, .connectSettles 0 (.ok 7), .resume 0]
    let s1 := run s [.destroy none, .disconnectSettles 0 (.ok ()), .resume 1]
    s1.self = s.self ∧
      (step s1 (.ensureConnection none)).connectCount = 1 ∧
      (step s1 (.destroy none)).disconnects =
        [⟨0, none, .fulfilled ()⟩, ⟨0, none, .pending⟩] :=
  have h := destroy_keeps_instance
    (run Sys.init [.ensureConnection none, .connectSettles 0 (.ok 7), .resume 0]) ⟨0, 0⟩ rfl
    none none (.ok ()) none
  ⟨h.2.2.1, congrArg Sys.connectCount h.2.2.2.2.1, congrArg Sys.disconnects h.2.2.2.2.2⟩


/-- Only `setErrorHandler` assigns `_errorHandler`. -/
theorem step_errorHandler (s : Sys) (a : Action) :
    (step s a).self._errorHandler =
      match a with
      | .setErrorHandler f => f
      | _ => s.self._errorHandler := by
  cases a with
  | ensureConnection arg =>
    simp only [step, ensureConnection]
    cases s.self._adapter <;> cases s.self._connectPromise <;> rfl
  | destroy o =>
    simp only [step, destroy]
    cases _getAdapter s.self <;> rfl
  | setErrorHandler f =>
    simp only [step, setErrorHandler]
    cases s.self._adapter <;> rfl
  | _setConnectParams cp => cases cp <;> rfl
  | connectSettles p r =>
    simp only [step]
    split
    · split <;> rfl
    · rfl
  | onInitSettles q r =>
    simp only [step]
    split <;> rfl
  | disconnectSettles d r =>
    simp only [step]
    split
    · split <;> rfl
    · rfl
  | resume t =>
    simp only [step, Sys.resume]
    split
    · split <;> rfl
    · split
      · rename_i r _
        cases r <;> rfl
      · rfl
    · split <;> rfl
    · split <;> rfl
    · rfl

theorem run_errorHandler (s : Sys) (acts : List Action) :
    (run s acts).self._errorHandler =
      acts.foldl (fun h a => match a with | .setErrorHandler f => f | _ => h)
        s.self._errorHandler := by
  induction acts generalizing s with
  | nil => rfl
  | cons a rest ih =>
    have hrun : run s (a :: rest) = run (step s a) rest := rfl
    rw [hrun, ih, step_errorHandler]
    cases a <;> rfl

/-- C5. In every state reached from a new instance by any sequence of method
calls, promise settlements and resumptions, a stored adapter carries the current
`_errorHandler` of the instance, and that handler is the one most recently
passed to `setErrorHandler` (the default if there was none). -/
theorem adapter_carries_current_handler (acts : List Action) (a : AMQPAdapter)
    (hstored : (run Sys.init acts).self._adapter = some a) :
    a._errorHandler = (run Sys.init acts).self._errorHandler ∧
    (run Sys.init acts).self._errorHandler = lastHandlerSet acts := by
  constructor
  · exact (SysInv_run SysInv_init acts).handler_installed a hstored
  · exact run_errorHandler Sys.init acts

/-- Witness for C5: the handler is replaced before the connect and again
while the connect is in flight. -/
theorem adapter_carries_current_handler_witness :
    (4 : Handler) =
        (run Sys.init [.setErrorHandler 3, .ensureConnection none, .setErrorHandler 4,
          .connectSettles 0 (.ok 9), .resume 0]).self._errorHandler ∧
      (run Sys.init [.setErrorHandler 3, .ensureConnection none, .setErrorHandler 4,
          .connectSettles 0 (.ok 9), .resume 0]).self._errorHandler =
        lastHandlerSet [.setErrorHandler 3, .ensureConnection none, .setErrorHandler 4,
          .connectSettles 0 (.ok 9), .resume 0] :=
  adapter_carries_current_handler
    [.setErrorHandler 3, .ensureConnection none, .setErrorHandler 4,
      .connectSettles 0 (.ok 9), .resume 0] ⟨0, 4⟩ (by decide)


/-- Resuming a call suspended at line 42 once the promise is settled. -/
theorem resume_shared_eq {s : Sys} {t p : Nat} {r : Except JSError AMQPAdapter}
    (ht : s.tasks[t]? = some (Task.ensureShared p)) (hr : s.connectSettled p = some r) :
    s.resume t = { s with tasks := s.tasks.set t (.ensureDone (ensureConnection_afterShared r)) } := by
  simp [Sys.resume, ht, hr]

/-- How a step on an idle instance (no adapter, no promise) records an
`ensureConnection` call. -/
theorem step_ensureConnection_idle (s : Sys) (arg : Option EnsureArgs)
    (ha : s.self._adapter = none) (hm : s.self._connectPromise = none) :
    step s (.ensureConnection arg) =
      { s with
          self := { s.self with _connectPromise := some s.connects.length },
          connects := s.connects ++
            [{ options := mergeConnectParams (arg.getD { connectParams := none }).connectParams
                 s.self._connectParams,
               promise := .pending }],
          tasks := s.tasks ++ [.ensureOwn s.connects.length] } := by
  simp [step, ensureConnection, ha, hm]

/-- C3. When the connect promise has been rejected with `e`: the call that
started the attempt resumes by clearing `_connectPromise` and throwing `e`,
with `_adapter` still unset and neither `_onInit` nor `connect` invoked; every
call waiting on that promise throws `e` as well, whether it resumes before or
after the starting call; and the next `ensureConnection` call invokes
`AMQPAdapter.connect` anew and stores the new promise. -/
theorem connect_failure_recoverable (acts : List Action) (t p : Nat) (c : ConnectCall)
    (e : JSError)
    (hown : (run Sys.init acts).tasks[t]? = some (Task.ensureOwn p))
    (hc : (run Sys.init acts).connects[p]? = some c)
    (hrej : c.promise = Promise.rejected e) :
    let s := run Sys.init acts
    let s1 := step s (.resume t)
    s1 = { s with self := { s.self with _connectPromise := none },
                  tasks := s.tasks.set t (.ensureDone (.error e)) } ∧
    s1.tasks[t]? = some (.ensureDone (.error e)) ∧
    s1.self._connectPromise = none ∧
    s1.self._adapter = none ∧
    s1.onInitCount = s.onInitCount ∧
    s1.connectCount = s.connectCount ∧
    (∀ t2 : Nat, s.tasks[t2]? = some (Task.ensureShared p) →
      (step s (.resume t2)).tasks[t2]? = some (.ensureDone (.error e)) ∧
      (step s1 (.resume t2)).tasks[t2]? = some (.ensureDone (.error e))) ∧
    (∀ arg, step s1 (.ensureConnection arg) =
      { s1 with
          self := { s1.self with _connectPromise := some s1.connects.length },
          connects := s1.connects ++
            [{ options := mergeConnectParams (arg.getD { connectParams := none }).connectParams
                 s1.self._connectParams,
               promise := .pending }],
          tasks := s1.tasks ++ [.ensureOwn s1.connects.length] }) := by
  intro s s1
  have hinv : SysInv s := SysInv_run SysInv_init acts
  have hr : s.connectSettled p = some (.error e) := by
    simp [Sys.connectSettled, s, hc, hrej, Promise.settled]
  have hs1 : s1 = { s with
      self := { s.self with _connectPromise := none },
      tasks := s.tasks.set t (.ensureDone (.error e)) } :=
    resume_own_eq hown hr
  have hnone : s.self._adapter = none :=
    (hinv.marked_fresh p (hinv.own_marked t p hown)).2
  have htl : t < s.tasks.length := getElem?_bound _ _ _ hown
  have hr1 : s1.connectSettled p = some (.error e) := by
    rw [hs1]; exact hr
  refine ⟨hs1, ?_, by rw [hs1], by rw [hs1]; exact hnone, by rw [hs1]; rfl, by rw [hs1]; rfl, ?_, ?_⟩
  · rw [hs1]; exact List.getElem?_set_self htl
  · intro t2 ht2
    have hne : t ≠ t2 := by
      intro heq
      rw [← heq, hown] at ht2
      cases ht2
    have ht2' : s1.tasks[t2]? = some (Task.ensureShared p) := by
      rw [hs1]
      simpa [List.getElem?_set_ne hne] using ht2
    have hb : t2 < s.tasks.length := getElem?_bound _ _ _ ht2
    have hb1 : t2 < s1.tasks.length := getElem?_bound _ _ _ ht2'
    constructor
    · show (s.resume t2).tasks[t2]? = _
      rw [resume_shared_eq ht2 hr]
      exact List.getElem?_set_self hb
    · show (s1.resume t2).tasks[t2]? = _
      rw [resume_shared_eq ht2' hr1]
      exact List.getElem?_set_self hb1
  · intro arg
    exact step_ensureConnection_idle s1 arg (by rw [hs1]; exact hnone) (by rw [hs1])

/-- Witness for C3: two concurrent callers, the connect refused, then a retry. -/
theorem connect_failure_recoverable_witness :
    let s := run Sys.init [.ensureConnection none, .ensureConnection none,
      .connectSettles 0 (.error ⟨"Error", "ECONNREFUSED"⟩)]
    (step s (.resume 0)).tasks[0]? = some (.ensureDone (.error ⟨"Error", "ECONNREFUSED"⟩)) ∧
      (step s (.resume 0)).self._connectPromise = none ∧
      (step (step s (.resume 0)) (.resume 1)).tasks[1]? =
        some (.ensureDone (.error ⟨"Error", "ECONNREFUSED"⟩)) ∧
      (step (step s (.resume 0)) (.ensureConnection none)).connectCount = 2 :=
  have h := connect_failure_recoverable
    [.ensureConnection none, .ensureConnection none,
      .connectSettles 0 (.error ⟨"Error", "ECONNREFUSED"⟩)]
    0 0 ⟨[], .rejected ⟨"Error", "ECONNREFUSED"⟩⟩ ⟨"Error", "ECONNREFUSED"⟩ rfl rfl rfl
  ⟨h.2.1, h.2.2.1, (h.2.2.2.2.2.2.1 1 rfl).2, congrArg Sys.connectCount (h.2.2.2.2.2.2.2 none)⟩


/-- A stored adapter is never dropped. -/
theorem step_adapter_isSome (s : Sys) (a : Action) (h : s.self._adapter.isSome = true) :
    (step s a).self._adapter.isSome = true := by
  cases a with
  | ensureConnection arg =>
    cases hs : s.self._adapter with
    | none => simp [hs] at h
    | some b => simp [step, ensureConnection, hs]
  | destroy o =>
    simp only [step, destroy]
    cases _getAdapter s.self <;> exact h
  | setErrorHandler f =>
    cases hs : s.self._adapter with
    | none => simp [hs] at h
    | some b => simp [step, setErrorHandler, hs]
  | _setConnectParams cp => cases cp <;> exact h
  | connectSettles p r =>
    simp only [step]
    split
    · split <;> exact h
    · exact h
  | onInitSettles q r =>
    simp only [step]
    split <;> exact h
  | disconnectSettles d r =>
    simp only [step]
    split
    · split <;> exact h
    · exact h
  | resume t =>
    simp only [step, Sys.resume]
    split
    · split <;> exact h
    · split
      · rename_i r _
        cases r
        · exact h
        · simp [ensureConnection_afterConnect]
      · exact h
    · split <;> exact h
    · split <;> exact h
    · exact h

theorem run_adapter_isSome (s : Sys) (acts : List Action) (h : s.self._adapter.isSome = true) :
    (run s acts).self._adapter.isSome = true := by
  induction acts generalizing s with
  | nil => exact h
  | cons a rest ih => exact ih (step s a) (step_adapter_isSome s a h)

/-- The hook `_onInit` is invoked only by the resumption of the call suspended at line
51, and only when its promise was fulfilled. -/
theorem step_onInitCount (s : Sys) (a : Action) :
    (step s a).onInitCount = s.onInitCount ∨
    ∃ t p adapter, a = .resume t ∧ s.tasks[t]? = some (Task.ensureOwn p) ∧
      s.connectSettled p = some (.ok adapter) := by
  cases a with
  | ensureConnection arg =>
    left
    simp only [step, ensureConnection]
    cases s.self._adapter <;> cases s.self._connectPromise <;> rfl
  | destroy o =>
    left
    simp only [step, destroy]
    cases _getAdapter s.self <;> rfl
  | setErrorHandler f => exact Or.inl rfl
  | _setConnectParams cp => exact Or.inl rfl
  | connectSettles p r =>
    left
    simp only [step]
    split
    · split <;> rfl
    · rfl
  | onInitSettles q r =>
    left
    simp only [step]
    split
    · simp [Sys.onInitCount]
    · rfl
  | disconnectSettles d r =>
    left
    simp only [step]
    split
    · split <;> rfl
    · rfl
  | resume t =>
    cases ht : s.tasks[t]? with
    | none => left; simp [step, Sys.resume, ht]
    | some x =>
      cases x with
      | ensureOwn p =>
        cases hr : s.connectSettled p with
        | none => left; simp [step, Sys.resume, ht, hr]
        | some r =>
          cases r with
          | error e => left; simp [step, Sys.resume, ht, hr, ensureConnection_afterConnect, Sys.onInitCount]
          | ok adapter => exact Or.inr ⟨t, p, adapter, rfl, ht, hr⟩
      | ensureShared p =>
        left
        cases hr : s.connectSettled p <;> simp [step, Sys.resume, ht, hr, Sys.onInitCount]
      | ensureOnInit q =>
        left
        cases hr : (s.onInits[q]?).bind Promise.settled <;>
          simp [step, Sys.resume, ht, hr, Sys.onInitCount]
      | destroyWait d =>
        left
        cases hr : (s.disconnects[d]?).bind (fun c => c.promise.settled) <;>
          simp [step, Sys.resume, ht, hr, Sys.onInitCount]
      | ensureDone r => left; simp [step, Sys.resume, ht]
      | destroyDone r => left; simp [step, Sys.resume, ht]

/-- C10. `_onInit` has been invoked once if an adapter is stored and not at
all otherwise.  A step invokes it only when it resumes the call that started
a connect attempt on a fulfilled promise, and every such resumption invokes it
exactly once, in the piece of code that has stored the adapter, cleared
`_connectPromise` and written the current handler into the adapter; calls that
return at line 38, calls resumed at line 42 and a rejected connect never invoke
it.  If the promise of `_onInit` is rejected with `e`, the starting call
throws `e`, the instance keeps its fields (the adapter stays stored), and every
later `ensureConnection` returns at once, invoking nothing. -/
theorem onInit_once_per_successful_connect (acts : List Action) :
    let s := run Sys.init acts
    s.onInitCount = (if s.self._adapter.isSome then 1 else 0) ∧
    (∀ a, (step s a).onInitCount = s.onInitCount ∨
      ∃ t p adapter, a = .resume t ∧ s.tasks[t]? = some (Task.ensureOwn p) ∧
        s.connectSettled p = some (.ok adapter)) ∧
    (∀ (t p : Nat) (adapter : AMQPAdapter), s.tasks[t]? = some (Task.ensureOwn p) →
      s.connectSettled p = some (.ok adapter) →
      step s (.resume t) =
        { s with
            self := { s.self with
              _adapter := some { adapter with _errorHandler := s.self._errorHandler },
              _connectPromise := none },
            onInits := s.onInits ++ [.pending],
            tasks := s.tasks.set t (.ensureOnInit s.onInits.length) }) ∧
    (∀ (t q : Nat) (e : JSError), s.tasks[t]? = some (Task.ensureOnInit q) →
      s.onInits[q]? = some (Promise.rejected e) →
      (step s (.resume t)).tasks[t]? = some (.ensureDone (.error e)) ∧
      (step s (.resume t)).self = s.self ∧
      s.self._adapter.isSome = true ∧
      ∀ (later : List Action) (arg : Option EnsureArgs),
        step (run (step s (.resume t)) later) (.ensureConnection arg) =
          { run (step s (.resume t)) later with
              tasks := (run (step s (.resume t)) later).tasks ++
                [.ensureDone (.ok .undefined)] }) := by
  intro s
  have hinv : SysInv s := SysInv_run SysInv_init acts
  refine ⟨hinv.onInit_once, step_onInitCount s, ?_, ?_⟩
  · intro t p adapter ht hr
    exact resume_own_eq ht hr
  · intro t q e ht hq
    have hres : step s (.resume t) =
        { s with tasks := s.tasks.set t (.ensureDone (.error e)) } := by
      simp [step, Sys.resume, ht, hq, Promise.settled, ensureConnection_afterOnInit]
    have hsome : s.self._adapter.isSome = true := by
      have hlen := getElem?_bound _ _ _ hq
      have hone := hinv.onInit_once
      cases hs : s.self._adapter with
      | none =>
        simp [hs] at hone
        simp [hone] at hlen
      | some b => rfl
    refine ⟨?_, by rw [hres], hsome, ?_⟩
    · rw [hres]
      exact List.getElem?_set_self (getElem?_bound _ _ _ ht)
    · intro later arg
      have h3 : (run (step s (.resume t)) later).self._adapter.isSome = true :=
        run_adapter_isSome _ later (by rw [hres]; exact hsome)
      cases hb : (run (step s (.resume t)) later).self._adapter with
      | none => simp [hb] at h3
      | some b => exact step_ensureConnection_connected _ b arg hb

/-- Witness for C10: the connect succeeds and the starting call invokes
`_onInit`; `_onInit` fails; a later call returns without running it again. -/
theorem onInit_once_per_successful_connect_witness :
    let s := run Sys.init [.ensureConnection none, .connectSettles 0 (.ok 9), .resume 0,
      .onInitSettles 0 (.error ⟨"Error", "assertQueue failed"⟩)]
    (step s (.resume 0)).tasks[0]? =
        some (.ensureDone (.error ⟨"Error", "assertQueue failed"⟩)) ∧
      (step s (.resume 0)).self = s.self ∧
      (step (run (step s (.resume 0)) [.setErrorHandler 2]) (.ensureConnection none)).onInitCount
        = 1 ∧
      (step (run Sys.init [.ensureConnection none, .connectSettles 0 (.ok 9)])
        (.resume 0)).onInitCount = 1 :=
  have h := (onInit_once_per_successful_connect
    [.ensureConnection none, .connectSettles 0 (.ok 9), .resume 0,
      .onInitSettles 0 (.error ⟨"Error", "assertQueue failed"⟩)]).2.2.2
    0 0 ⟨"Error", "assertQueue failed"⟩ rfl rfl
  ⟨h.1, h.2.1, congrArg Sys.onInitCount (h.2.2.2 [.setErrorHandler 2] none),
   congrArg Sys.onInitCount
    ((onInit_once_per_successful_connect
      [.ensureConnection none, .connectSettles 0 (.ok 9)]).2.2.1 0 0 ⟨0, 9⟩ rfl rfl)⟩

/-- How a step records an `ensureConnection` call while a connect promise is
stored and no adapter is: the call becomes one more waiter on that promise. -/
theorem step_ensureConnection_waiting (s : Sys) (n : Nat) (arg : Option EnsureArgs)
    (ha : s.self._adapter = none) (hm : s.self._connectPromise = some n) :
    step s (.ensureConnection arg) = { s with tasks := s.tasks ++ [.ensureShared n] } := by
  simp [step, ensureConnection, ha, hm]

/-- The static `AMQPAdapter.connect` is invoked only by an `ensureConnection` call that
finds neither an adapter nor a promise stored, and then once. -/
theorem step_connectCount (s : Sys) (a : Action) :
    (step s a).connectCount = s.connectCount ∨
    ((∃ arg, a = .ensureConnection arg) ∧ s.self._adapter = none ∧
      s.self._connectPromise = none ∧ (step s a).connectCount = s.connectCount + 1) := by
  cases a with
  | ensureConnection arg =>
    cases ha : s.self._adapter with
    | some b => left; rw [step_ensureConnection_connected s b arg ha]; rfl
    | none =>
      cases hm : s.self._connectPromise with
      | some n => left; rw [step_ensureConnection_waiting s n arg ha hm]; rfl
      | none =>
        right
        refine ⟨⟨arg, rfl⟩, rfl, rfl, ?_⟩
        rw [step_ensureConnection_idle s arg ha hm]
        simp [Sys.connectCount]
  | destroy o =>
    left
    simp only [step, destroy]
    cases _getAdapter s.self <;> rfl
  | setErrorHandler f => exact Or.inl rfl
  | _setConnectParams cp => exact Or.inl rfl
  | connectSettles p r =>
    left
    simp only [step]
    split
    · split
      · simp [Sys.connectCount]
      · rfl
    · rfl
  | onInitSettles q r =>
    left
    simp only [step]
    split <;> rfl
  | disconnectSettles d r =>
    left
    simp only [step]
    split
    · split <;> rfl
    · rfl
  | resume t =>
    left
    simp only [step, Sys.resume]
    split
    · split <;> rfl
    · split
      · rename_i r _
        cases r <;> rfl
      · rfl
    · split <;> rfl
    · split <;> rfl
    · rfl

theorem Waiting_step {n : Nat} {s : Sys} (h : Waiting n s) (a : Action)
    (ha : ∀ r, a ≠ .connectSettles n r) : Waiting n (step s a) := by
  have hinv := SysInv_step h.inv a
  rcases h.pending with ⟨c, hc, hpend⟩
  have hsettled : s.connectSettled n = none := by
    simp [Sys.connectSettled, hc, hpend, Promise.settled]
  cases a with
  | ensureConnection arg =>
    rw [step_ensureConnection_waiting s n arg h.adapter h.marker] at hinv ⊢
    exact ⟨hinv, h.adapter, h.marker, h.count, h.pending⟩
  | destroy o =>
    have hd : step s (.destroy o) =
        { s with tasks := s.tasks ++ [.destroyDone (.error notConnectedError)] } := by
      simp [step, destroy, _getAdapter, h.adapter]
    rw [hd] at hinv ⊢
    exact ⟨hinv, h.adapter, h.marker, h.count, h.pending⟩
  | setErrorHandler f =>
    have hd : step s (.setErrorHandler f) =
        { s with self := { s.self with _errorHandler := f } } := by
      simp [step, setErrorHandler, h.adapter]
    rw [hd] at hinv ⊢
    exact ⟨hinv, h.adapter, h.marker, h.count, h.pending⟩
  | _setConnectParams cp =>
    cases cp with
    | none => exact h
    | some x => exact ⟨hinv, h.adapter, h.marker, h.count, h.pending⟩
  | connectSettles p r =>
    have hne : p ≠ n := by
      intro e; exact ha r (by rw [e])
    refine ⟨hinv, ?_, ?_, ?_, ?_⟩
    · simp only [step]
      split
      · split
        · exact h.adapter
        · exact h.adapter
      · exact h.adapter
    · simp only [step]
      split
      · split
        · exact h.marker
        · exact h.marker
      · exact h.marker
    · simp only [step]
      split
      · split
        · simpa using h.count
        · exact h.count
      · exact h.count
    · simp only [step]
      split
      · split
        · exact ⟨c, by simpa [List.getElem?_set_ne hne] using hc, hpend⟩
        · exact h.pending
      · exact h.pending
  | onInitSettles q r =>
    refine ⟨hinv, ?_, ?_, ?_, ?_⟩ <;> simp only [step] <;> split
    · exact h.adapter
    · exact h.adapter
    · exact h.marker
    · exact h.marker
    · exact h.count
    · exact h.count
    · exact h.pending
    · exact h.pending
  | disconnectSettles d r =>
    refine ⟨hinv, ?_, ?_, ?_, ?_⟩ <;> simp only [step] <;> split
    · split
      · exact h.adapter
      · exact h.adapter
    · exact h.adapter
    · split
      · exact h.marker
      · exact h.marker
    · exact h.marker
    · split
      · exact h.count
      · exact h.count
    · exact h.count
    · split
      · exact h.pending
      · exact h.pending
    · exact h.pending
  | resume t =>
    cases ht : s.tasks[t]? with
    | none =>
      have hd : step s (.resume t) = s := by simp [step, Sys.resume, ht]
      rw [hd]; exact h
    | some x =>
      cases x with
      | ensureOwn p =>
        have hp : p = n := by
          have := h.inv.own_marked t p ht
          rw [h.marker] at this
          exact (Option.some.inj this).symm
        subst hp
        have hd : step s (.resume t) = s := by simp [step, Sys.resume, ht, hsettled]
        rw [hd]; exact h
      | ensureShared p =>
        cases hr : s.connectSettled p with
        | none =>
          have hd : step s (.resume t) = s := by simp [step, Sys.resume, ht, hr]
          rw [hd]; exact h
        | some r =>
          have hd : step s (.resume t) = s.resume t := rfl
          rw [hd, resume_shared_eq ht hr] at hinv ⊢
          exact ⟨hinv, h.adapter, h.marker, h.count, h.pending⟩
      | ensureOnInit q =>
        cases hr : (s.onInits[q]?).bind Promise.settled with
        | none =>
          have hd : step s (.resume t) = s := by simp [step, Sys.resume, ht, hr]
          rw [hd]; exact h
        | some r =>
          have hd : step s (.resume t) =
              { s with tasks := s.tasks.set t (.ensureDone (ensureConnection_afterOnInit r)) } := by
            simp [step, Sys.resume, ht, hr]
          rw [hd] at hinv ⊢
          exact ⟨hinv, h.adapter, h.marker, h.count, h.pending⟩
      | destroyWait d =>
        cases hr : (s.disconnects[d]?).bind (fun c => c.promise.settled) with
        | none =>
          have hd : step s (.resume t) = s := by simp [step, Sys.resume, ht, hr]
          rw [hd]; exact h
        | some r =>
          have hd : step s (.resume t) =
              { s with tasks := s.tasks.set t (.destroyDone (destroy_afterDisconnect r)) } := by
            simp [step, Sys.resume, ht, hr]
          rw [hd] at hinv ⊢
          exact ⟨hinv, h.adapter, h.marker, h.count, h.pending⟩
      | ensureDone r =>
        have hd : step s (.resume t) = s := by simp [step, Sys.resume, ht]
        rw [hd]; exact h
      | destroyDone r =>
        have hd : step s (.resume t) = s := by simp [step, Sys.resume, ht]
        rw [hd]; exact h

theorem Waiting_run {n : Nat} {s : Sys} (h : Waiting n s) (acts : List Action)
    (ha : ∀ r, Action.connectSettles n r ∉ acts) : Waiting n (run s acts) := by
  induction acts generalizing s with
  | nil => exact h
  | cons a rest ih =>
    apply ih (Waiting_step h a ?_)
    · intro r hr
      exact ha r (List.mem_cons_of_mem _ hr)
    · intro r e
      exact ha r (by rw [e]; exact List.mem_cons_self _ _)


/-- C1. In every state reached from a new instance: a step invokes
`AMQPAdapter.connect` only if it is an `ensureConnection` call that finds
neither an adapter nor a connect promise stored, so never while `_adapter` is
set or `_connectPromise` is non-null; at most one connect attempt is in flight
and at most one attempt ever produced an adapter.  And when a call starts an
attempt, then through every sequence of further actions in which that attempt
does not settle `connect` has been invoked exactly once more, and every
further `ensureConnection` call in the sequence does nothing but suspend on
the promise of that attempt. -/
theorem single_flight_connect (acts : List Action) :
    let s := run Sys.init acts
    (∀ a, (s.self._adapter.isSome = true ∨ s.self._connectPromise.isSome = true) →
      (step s a).connectCount = s.connectCount) ∧
    (∀ p q, s.inFlight p → s.inFlight q → p = q) ∧
    (∀ p q, s.succeeded p → s.succeeded q → p = q) ∧
    (s.self._adapter = none → s.self._connectPromise = none →
      ∀ (first : Option EnsureArgs) (later : List Action),
        (∀ r, Action.connectSettles s.connectCount r ∉ later) →
        (step s (.ensureConnection first)).connectCount = s.connectCount + 1 ∧
        (run (step s (.ensureConnection first)) later).connectCount = s.connectCount + 1 ∧
        ∀ pre arg post, later = pre ++ Action.ensureConnection arg :: post →
          step (run (step s (.ensureConnection first)) pre) (.ensureConnection arg) =
            { run (step s (.ensureConnection first)) pre with
                tasks := (run (step s (.ensureConnection first)) pre).tasks ++
                  [.ensureShared s.connectCount] }) := by
  intro s
  have hinv : SysInv s := SysInv_run SysInv_init acts
  refine ⟨?_, ?_, ?_, ?_⟩
  · intro a hset
    rcases step_connectCount s a with h | ⟨_, ha, hm, _⟩
    · exact h
    · rcases hset with h1 | h1
      · simp [ha] at h1
      · simp [hm] at h1
  · intro p q hp hq
    have e1 := hinv.pending_marked p hp
    have e2 := hinv.pending_marked q hq
    rw [e1] at e2
    exact Option.some.inj e2
  · intro p q hp hq
    rcases hp with ⟨c, a, hc, hfa⟩
    rcases hq with ⟨c2, a2, hc2, hfa2⟩
    rcases (hinv.fulfilled_kept p c a hc hfa).2 with h1 | ⟨b, hb, hid⟩
    · rcases (hinv.fulfilled_kept q c2 a2 hc2 hfa2).2 with h2 | ⟨b2, hb2, _⟩
      · rw [h1] at h2; exact Option.some.inj h2
      · rw [(hinv.marked_fresh p h1).2] at hb2; exact Option.noConfusion hb2
    · rcases (hinv.fulfilled_kept q c2 a2 hc2 hfa2).2 with h2 | ⟨b2, hb2, hid2⟩
      · rw [(hinv.marked_fresh q h2).2] at hb; exact Option.noConfusion hb
      · rw [hb] at hb2
        cases hb2
        rw [← hid, ← hid2]
  · intro ha hm first later hlater
    have hs1 := step_ensureConnection_idle s first ha hm
    have hw : Waiting s.connectCount (step s (.ensureConnection first)) := by
      refine ⟨SysInv_step hinv _, ?_, ?_, ?_, ?_⟩
      · rw [hs1]; exact ha
      · rw [hs1]; rfl
      · rw [hs1]; simp [Sys.connectCount]
      · rw [hs1]
        exact ⟨_, List.getElem?_concat_length _ _, rfl⟩
    refine ⟨?_, ?_, ?_⟩
    · rw [hs1]; simp [Sys.connectCount]
    · exact (Waiting_run hw later hlater).count
    · intro pre arg post hsplit
      have hpre : Waiting s.connectCount (run (step s (.ensureConnection first)) pre) := by
        apply Waiting_run hw pre
        intro r hr
        apply hlater r
        rw [hsplit]
        exact List.mem_append_left _ hr
      exact step_ensureConnection_waiting _ _ arg hpre.adapter hpre.marker

/-- Witness for C1: three concurrent first callers on a new instance, with a
handler change and a premature resumption in between; and a call made while
the promise is stored invokes no connect. -/
theorem single_flight_connect_witness :
    (run (step Sys.init (.ensureConnection none))
        [.ensureConnection (some ⟨some [("url", "amqp://b")]⟩), .setErrorHandler 1, .resume 0,
          .ensureConnection none]).connectCount = 1 ∧
      step (run (step Sys.init (.ensureConnection none))
          [.ensureConnection (some ⟨some [("url", "amqp://b")]⟩), .setErrorHandler 1, .resume 0])
          (.ensureConnection none) =
        { run (step Sys.init (.ensureConnection none))
            [.ensureConnection (some ⟨some [("url", "amqp://b")]⟩), .setErrorHandler 1, .resume 0]
          with tasks := [.ensureOwn 0, .ensureShared 0, .ensureShared 0] } ∧
      (step (run Sys.init [.ensureConnection none]) (.ensureConnection none)).connectCount =
        (run Sys.init [.ensureConnection none]).connectCount :=
  have h := (single_flight_connect []).2.2.2 rfl rfl none
    [.ensureConnection (some ⟨some [("url", "amqp://b")]⟩), .setErrorHandler 1, .resume 0,
      .ensureConnection none]
    (by intro r hr; simp at hr)
  ⟨h.2.1, h.2.2
    [.ensureConnection (some ⟨some [("url", "amqp://b")]⟩), .setErrorHandler 1, .resume 0]
    none [] rfl,
   (single_flight_connect [.ensureConnection none]).1 (.ensureConnection none) (Or.inr rfl)⟩

end MqRpc
